import Mathlib

/-!
Shallow embedding of the token-bucket rate limiter in `src/app.py`.

Time stamps and token counts are modelled as rationals.  Python 3's builtin
`round` is round-half-to-even (banker's rounding); it is embedded as `pyRound`.
The bucket store `rate_limit_store` is a partial map from string keys to
buckets; `check_rate_limit` takes the current time as an explicit parameter
(the Python code reads `time.time()`, a wall-clock source).
-/

/-- `MAX_TOKENS = 9` — burst capacity (src/app.py line 11). -/
def MAX_TOKENS : ℚ := 9

/-- `REFILL_RATE = 41 / 60` — tokens per second (src/app.py line 12). -/
def REFILL_RATE : ℚ := 41 / 60

/-- Python 3's builtin `round`: round half to even (banker's rounding). -/
def pyRound (q : ℚ) : ℤ :=
  if q - (⌊q⌋ : ℚ) < 1/2 then ⌊q⌋
  else if 1/2 < q - (⌊q⌋ : ℚ) then ⌊q⌋ + 1
  else if ⌊q⌋ % 2 = 0 then ⌊q⌋ else ⌊q⌋ + 1

/-- Per-key mutable state stored in `rate_limit_store`:
`{"tokens": ..., "last_refill": ...}` (src/app.py lines 61-64). -/
structure TokenBucket where
  tokens : ℚ
  last_refill : ℚ
deriving Repr, DecidableEq

/-- The `elapsed` value computed at src/app.py line 69. -/
def elapsedOf (b : TokenBucket) (now : ℚ) : ℚ :=
  now - b.last_refill

/-- The refill step, src/app.py lines 69-72: add `elapsed * REFILL_RATE`
tokens, clamp at `MAX_TOKENS`, and stamp `last_refill := now`. -/
def refillBucket (b : TokenBucket) (now : ℚ) : TokenBucket :=
  { tokens := min MAX_TOKENS (b.tokens + elapsedOf b now * REFILL_RATE)
    last_refill := now }

/-- The body of `check_rate_limit` acting on one bucket
(src/app.py lines 69-80): refill, then either consume one token and admit,
or deny with `round((1 - tokens) / REFILL_RATE)` as the retry delay. -/
def checkBucket (b : TokenBucket) (now : ℚ) : (Bool × ℤ) × TokenBucket :=
  let b' := refillBucket b now
  if 1 ≤ b'.tokens then
    ((true, 0), { b' with tokens := b'.tokens - 1 })
  else
    ((false, pyRound ((1 - b'.tokens) / REFILL_RATE)), b')

/-- The in-memory store `rate_limit_store` (src/app.py line 16): a partial
map from user keys to buckets. -/
def Store : Type := String → Option TokenBucket

/-- `check_rate_limit` (src/app.py lines 57-80): create a full bucket stamped
`now` if the key is absent, then run the bucket check and write the updated
bucket back under the key.  The create-if-absent insertion (lines 60-64) and
the in-place mutation of the bucket (lines 71-75) collapse into a single final
write at `user_key`, since the created bucket is immediately read back at
line 66 and every mutation happens to the bucket stored under that key. -/
def check_rate_limit (store : Store) (user_key : String) (now : ℚ) :
    (Bool × ℤ) × Store :=
  let bucket := (store user_key).getD { tokens := MAX_TOKENS, last_refill := now }
  let rb := checkBucket bucket now
  (rb.1, fun k => if k = user_key then some rb.2 else store k)

/-- Results of `n` consecutive calls on one bucket, all at time `now`. -/
def runCalls (b : TokenBucket) (now : ℚ) : Nat → List (Bool × ℤ) × TokenBucket
  | 0 => ([], b)
  | n + 1 =>
    ((checkBucket b now).1 :: (runCalls (checkBucket b now).2 now n).1,
     (runCalls (checkBucket b now).2 now n).2)

/-- Results of `n` consecutive `check_rate_limit` calls for one key, all at
time `now`, threading the store through. -/
def runStore (store : Store) (key : String) (now : ℚ) :
    Nat → List (Bool × ℤ) × Store
  | 0 => ([], store)
  | n + 1 =>
    ((check_rate_limit store key now).1
       :: (runStore (check_rate_limit store key now).2 key now n).1,
     (runStore (check_rate_limit store key now).2 key now n).2)

/-- The successive bucket states produced by calls at the given times. -/
def statesAfter (b : TokenBucket) : List ℚ → List TokenBucket
  | [] => []
  | t :: ts => (checkBucket b t).2 :: statesAfter (checkBucket b t).2 ts

-- ---------------------------------------------------------------------------
-- Helper lemmas about pyRound
-- ---------------------------------------------------------------------------

theorem floor_le_pyRound (q : ℚ) : ⌊q⌋ ≤ pyRound q := by
  unfold pyRound
  split_ifs <;> omega

theorem pyRound_le_floor_add_one (q : ℚ) : pyRound q ≤ ⌊q⌋ + 1 := by
  unfold pyRound
  split_ifs <;> omega

theorem pyRound_nonneg {q : ℚ} (h : 0 ≤ q) : 0 ≤ pyRound q := by
  have h1 : (0 : ℤ) ≤ ⌊q⌋ := Int.floor_nonneg.mpr h
  have h2 := floor_le_pyRound q
  omega

theorem pyRound_mono {a b : ℚ} (h : a ≤ b) : pyRound a ≤ pyRound b := by
  have hf : ⌊a⌋ ≤ ⌊b⌋ := Int.floor_le_floor h
  rcases lt_or_eq_of_le hf with hlt | heq
  · calc pyRound a ≤ ⌊a⌋ + 1 := pyRound_le_floor_add_one a
      _ ≤ ⌊b⌋ := by omega
      _ ≤ pyRound b := floor_le_pyRound b
  · have hfr : a - (⌊a⌋ : ℚ) ≤ b - (⌊b⌋ : ℚ) := by
      rw [heq]; linarith
    unfold pyRound
    rw [heq]
    split_ifs <;> first | omega | linarith

theorem pyRound_half_even (n : ℤ) :
    pyRound ((n : ℚ) + 1/2) = if n % 2 = 0 then n else n + 1 := by
  have hfl : ⌊(n : ℚ) + 1/2⌋ = n := by
    rw [Int.floor_int_add]
    norm_num
  unfold pyRound
  rw [hfl]
  have hr : (n : ℚ) + 1/2 - (n : ℚ) = 1/2 := by ring
  rw [hr]
  norm_num

theorem pyRound_eq_zero {q : ℚ} (h0 : 0 ≤ q) (h1 : q ≤ 1/2) : pyRound q = 0 := by
  have hfl : ⌊q⌋ = 0 := by
    apply Int.floor_eq_zero_iff.mpr
    constructor
    · exact h0
    · linarith
  unfold pyRound
  rw [hfl]
  push_cast
  split_ifs with h h' <;> first | rfl | linarith

-- ---------------------------------------------------------------------------
-- Helper lemmas about the bucket check
-- ---------------------------------------------------------------------------

theorem REFILL_RATE_pos : 0 < REFILL_RATE := by norm_num [REFILL_RATE]

theorem checkBucket_deny {b : TokenBucket} {now : ℚ}
    (h : (refillBucket b now).tokens < 1) :
    checkBucket b now
      = ((false, pyRound ((1 - (refillBucket b now).tokens) / REFILL_RATE)),
         refillBucket b now) := by
  unfold checkBucket
  rw [if_neg (not_le.mpr h)]

theorem checkBucket_admits {b : TokenBucket} {now : ℚ}
    (h : 1 ≤ (refillBucket b now).tokens) :
    checkBucket b now
      = ((true, 0),
         { tokens := (refillBucket b now).tokens - 1, last_refill := now }) := by
  unfold checkBucket
  rw [if_pos h]
  rfl

theorem checkBucket_denied_iff (b : TokenBucket) (now : ℚ) :
    (checkBucket b now).1.1 = false ↔ (refillBucket b now).tokens < 1 := by
  by_cases h : (refillBucket b now).tokens < 1
  · rw [checkBucket_deny h]
    simp [h]
  · rw [checkBucket_admits (not_lt.mp h)]
    simp [h]

theorem refillBucket_tokens (b : TokenBucket) (now : ℚ) :
    (refillBucket b now).tokens
      = min MAX_TOKENS (b.tokens + (now - b.last_refill) * REFILL_RATE) := rfl

theorem refillBucket_last (b : TokenBucket) (now : ℚ) :
    (refillBucket b now).last_refill = now := rfl

theorem refill_tokens_mono (b : TokenBucket) {now1 now2 : ℚ} (h : now1 ≤ now2) :
    (refillBucket b now1).tokens ≤ (refillBucket b now2).tokens := by
  rw [refillBucket_tokens, refillBucket_tokens]
  apply min_le_min le_rfl
  have := REFILL_RATE_pos
  nlinarith

theorem checkBucket_self_admits (t now : ℚ) (h1 : 1 ≤ t) (h2 : t ≤ MAX_TOKENS) :
    checkBucket ⟨t, now⟩ now = ((true, 0), ⟨t - 1, now⟩) := by
  have hr : refillBucket ⟨t, now⟩ now = ⟨t, now⟩ := by
    unfold refillBucket elapsedOf
    simp [min_eq_right h2]
  rw [checkBucket_admits (by rw [hr]; exact h1), hr]

theorem checkBucket_self_deny_zero (now : ℚ) :
    checkBucket ⟨0, now⟩ now = ((false, 1), ⟨0, now⟩) := by
  have hr : refillBucket ⟨0, now⟩ now = ⟨0, now⟩ := by
    unfold refillBucket elapsedOf
    norm_num [MAX_TOKENS]
  rw [checkBucket_deny (by rw [hr]; norm_num), hr]
  have hq : ((1 : ℚ) - (⟨0, now⟩ : TokenBucket).tokens) / REFILL_RATE
      = 60 / 41 := by
    norm_num [REFILL_RATE]
  rw [hq]
  norm_num [pyRound]

theorem checkBucket_preserves (b : TokenBucket) (now : ℚ)
    (h0 : 0 ≤ b.tokens) (hn : b.last_refill ≤ now) :
    0 ≤ (checkBucket b now).2.tokens ∧
    (checkBucket b now).2.tokens ≤ MAX_TOKENS ∧
    (checkBucket b now).2.last_refill = now := by
  have hR := REFILL_RATE_pos
  have hup : (refillBucket b now).tokens ≤ MAX_TOKENS := by
    rw [refillBucket_tokens]
    exact min_le_left _ _
  have hlo : 0 ≤ (refillBucket b now).tokens := by
    rw [refillBucket_tokens]
    apply le_min (by norm_num [MAX_TOKENS])
    nlinarith
  by_cases hc : (refillBucket b now).tokens < 1
  · rw [checkBucket_deny hc]
    exact ⟨hlo, hup, rfl⟩
  · rw [checkBucket_admits (not_lt.mp hc)]
    refine ⟨?_, ?_, rfl⟩
    · show 0 ≤ (refillBucket b now).tokens - 1
      linarith [not_lt.mp hc]
    · show (refillBucket b now).tokens - 1 ≤ MAX_TOKENS
      linarith

theorem statesAfter_bounded : ∀ (times : List ℚ) (b : TokenBucket),
    0 ≤ b.tokens → b.tokens ≤ MAX_TOKENS →
    List.Chain (· ≤ ·) b.last_refill times →
    ∀ b' ∈ statesAfter b times, 0 ≤ b'.tokens ∧ b'.tokens ≤ MAX_TOKENS := by
  intro times
  induction times with
  | nil =>
    intro b _ _ _ b' hb'
    simp [statesAfter] at hb'
  | cons t ts ih =>
    intro b hb0 hb1 hchain b' hb'
    rw [List.chain_cons] at hchain
    obtain ⟨hle, hch⟩ := hchain
    have hstep := checkBucket_preserves b t hb0 hle
    rcases List.mem_cons.mp hb' with rfl | hmem
    · exact ⟨hstep.1, hstep.2.1⟩
    · exact ih (checkBucket b t).2 hstep.1 hstep.2.1
        (by rw [hstep.2.2]; exact hch) b' hmem

theorem check_decision_congr (s1 s2 : Store) (k : String) (now : ℚ)
    (h : s1 k = s2 k) :
    (check_rate_limit s1 k now).1 = (check_rate_limit s2 k now).1 := by
  simp only [check_rate_limit, h]

theorem runStore_fst (key : String) (now : ℚ) :
    ∀ (n : Nat) (store : Store) (b : TokenBucket), store key = some b →
      (runStore store key now n).1 = (runCalls b now n).1 := by
  intro n
  induction n with
  | zero =>
    intro store b _
    rfl
  | succ n ih =>
    intro store b h
    simp only [runStore, runCalls, check_rate_limit, h, Option.getD_some]
    congr 1
    exact ih _ _ (by simp)

theorem runCalls_full (now : ℚ) : ∀ k : ℕ, k ≤ 9 →
    (runCalls ⟨(k : ℚ), now⟩ now (k + 1)).1
      = List.replicate k (true, 0) ++ [(false, 1)] := by
  intro k
  induction k with
  | zero =>
    intro _
    simp [runCalls, checkBucket_self_deny_zero now]
  | succ k ih =>
    intro hk
    have hca : checkBucket ⟨((k + 1 : ℕ) : ℚ), now⟩ now
        = ((true, 0), ⟨((k + 1 : ℕ) : ℚ) - 1, now⟩) := by
      apply checkBucket_self_admits
      · exact_mod_cast Nat.succ_le_succ (Nat.zero_le k)
      · show ((k + 1 : ℕ) : ℚ) ≤ (9 : ℚ)
        exact_mod_cast hk
    have hsub : ((k + 1 : ℕ) : ℚ) - 1 = (k : ℚ) := by
      push_cast
      ring
    rw [runCalls, hca]
    dsimp only
    rw [hsub, ih (by omega)]
    simp [List.replicate_succ]

-- ---------------------------------------------------------------------------
-- Claims
-- ---------------------------------------------------------------------------

/-- C1: for any key whose stored bucket is fresh (`last_refill = now`) and
full (`tokens = MAX_TOKENS = 9`), ten consecutive `check_rate_limit` calls at
that same instant admit the first nine and deny the tenth with a strictly
positive `retry_after` (concretely `round(60/41) = 1`). -/
theorem capacity_bound (store : Store) (key : String) (now : ℚ)
    (h : store key = some ⟨MAX_TOKENS, now⟩) :
    ∃ r : ℤ, 0 < r ∧
      (runStore store key now 10).1
        = List.replicate 9 (true, 0) ++ [(false, r)] := by
  refine ⟨1, one_pos, ?_⟩
  rw [runStore_fst key now 10 store ⟨MAX_TOKENS, now⟩ h]
  have hb : (⟨MAX_TOKENS, now⟩ : TokenBucket) = ⟨((9 : ℕ) : ℚ), now⟩ := by
    norm_num [MAX_TOKENS]
  rw [hb]
  exact runCalls_full now 9 (by norm_num)

/-- Witness for C1 at a concrete store holding a fresh full bucket. -/
theorem capacity_bound_witness :
    (fun _ => some ⟨MAX_TOKENS, 0⟩ : Store) "k" = some ⟨MAX_TOKENS, 0⟩ ∧
    ∃ r : ℤ, 0 < r ∧
      (runStore (fun _ => some ⟨MAX_TOKENS, 0⟩) "k" 0 10).1
        = List.replicate 9 (true, 0) ++ [(false, r)] :=
  ⟨rfl, capacity_bound (fun _ => some ⟨MAX_TOKENS, 0⟩) "k" 0 rfl⟩

/-- C3 (amended): provided every call's `now` is at or after the bucket's
current `last_refill` stamp (non-decreasing wall clock), `0 ≤ tokens ≤
MAX_TOKENS` holds after every call of the sequence; and unconditionally a
denied call leaves tokens at the refilled clamped value (never decrements).
The unamended lower bound fails when the wall clock jumps backward, because
`min` only clamps from above. -/
theorem tokens_range_invariant (b : TokenBucket) (times : List ℚ)
    (h0 : 0 ≤ b.tokens) (h1 : b.tokens ≤ MAX_TOKENS)
    (hc : List.Chain (· ≤ ·) b.last_refill times) :
    (∀ b' ∈ statesAfter b times, 0 ≤ b'.tokens ∧ b'.tokens ≤ MAX_TOKENS) ∧
    (∀ (c : TokenBucket) (n : ℚ), (checkBucket c n).1.1 = false →
      (checkBucket c n).2.tokens = (refillBucket c n).tokens) := by
  refine ⟨statesAfter_bounded times b h0 h1 hc, ?_⟩
  intro c n hden
  rw [checkBucket_deny ((checkBucket_denied_iff c n).mp hden)]

/-- Witness for C3 (amended) on a full bucket called at times 1 and 2. -/
theorem tokens_range_invariant_witness :
    (0 : ℚ) ≤ (⟨9, 0⟩ : TokenBucket).tokens ∧
    (⟨9, 0⟩ : TokenBucket).tokens ≤ MAX_TOKENS ∧
    List.Chain (· ≤ ·) (⟨9, 0⟩ : TokenBucket).last_refill [1, 2] ∧
    ((∀ b' ∈ statesAfter ⟨9, 0⟩ [1, 2],
        0 ≤ b'.tokens ∧ b'.tokens ≤ MAX_TOKENS) ∧
     (∀ (c : TokenBucket) (n : ℚ), (checkBucket c n).1.1 = false →
        (checkBucket c n).2.tokens = (refillBucket c n).tokens)) :=
  ⟨by norm_num, by norm_num [MAX_TOKENS],
   by simp [List.chain_cons],
   tokens_range_invariant ⟨9, 0⟩ [1, 2] (by norm_num)
     (by norm_num [MAX_TOKENS]) (by simp [List.chain_cons])⟩

/-- Counterexample to C3 as stated: a fresh full bucket stamped at time 100,
hit by a call when the wall clock reads 0 (a backward jump `time.time()` can
produce), ends with `tokens = -178/3 < 0`. -/
theorem tokens_negative_backward_clock :
    (checkBucket ⟨9, 100⟩ 0).2.tokens < 0 := by
  rw [checkBucket_deny
    (by norm_num [refillBucket, elapsedOf, MAX_TOKENS, REFILL_RATE])]
  norm_num [refillBucket, elapsedOf, MAX_TOKENS, REFILL_RATE]

/-- C4: from an exhausted bucket (`tokens = 0`, stamped `t0`), a call at time
`t0 + t` finds `t * REFILL_RATE` tokens added, clamped at capacity; it admits
iff at least one full token has refilled; and for `t = 2` the admitted call
leaves `41/30 - 1 = 11/30 ≈ 0.37` tokens. -/
theorem refill_after_exhaustion (t0 t : ℚ) (h : 0 ≤ t) :
    (refillBucket ⟨0, t0⟩ (t0 + t)).tokens = min MAX_TOKENS (t * REFILL_RATE) ∧
    ((checkBucket ⟨0, t0⟩ (t0 + t)).1.1 = true ↔ 1 ≤ t * REFILL_RATE) ∧
    (checkBucket ⟨0, t0⟩ (t0 + 2)).2.tokens = 11/30 := by
  have hre : ∀ s : ℚ, refillBucket ⟨0, t0⟩ s
      = ⟨min MAX_TOKENS ((s - t0) * REFILL_RATE), s⟩ := by
    intro s
    unfold refillBucket elapsedOf
    norm_num
  have hts : t0 + t - t0 = t := by ring
  have h2s : t0 + 2 - t0 = (2 : ℚ) := by ring
  refine ⟨?_, ?_, ?_⟩
  · rw [hre (t0 + t), hts]
  · by_cases hc : 1 ≤ t * REFILL_RATE
    · have hadm : 1 ≤ (refillBucket ⟨0, t0⟩ (t0 + t)).tokens := by
        rw [hre (t0 + t), hts]
        show 1 ≤ min MAX_TOKENS (t * REFILL_RATE)
        exact le_min (by norm_num [MAX_TOKENS]) hc
      rw [checkBucket_admits hadm]
      simp [hc]
    · have hden : (refillBucket ⟨0, t0⟩ (t0 + t)).tokens < 1 := by
        rw [hre (t0 + t), hts]
        show min MAX_TOKENS (t * REFILL_RATE) < 1
        exact lt_of_le_of_lt (min_le_right _ _) (not_le.mp hc)
      rw [checkBucket_deny hden]
      simp [hc]
  · have h2r : refillBucket ⟨0, t0⟩ (t0 + 2) = ⟨41/30, t0 + 2⟩ := by
      rw [hre (t0 + 2), h2s]
      norm_num [MAX_TOKENS, REFILL_RATE]
    have hadm2 : 1 ≤ (refillBucket ⟨0, t0⟩ (t0 + 2)).tokens := by
      rw [h2r]
      norm_num
    rw [checkBucket_admits hadm2]
    show (refillBucket ⟨0, t0⟩ (t0 + 2)).tokens - 1 = 11/30
    rw [h2r]
    norm_num

/-- Witness for C4 at `t0 = 0`, `t = 2`. -/
theorem refill_after_exhaustion_witness :
    (0 : ℚ) ≤ 2 ∧
    ((refillBucket ⟨0, 0⟩ ((0 : ℚ) + 2)).tokens
        = min MAX_TOKENS (2 * REFILL_RATE) ∧
     ((checkBucket ⟨0, 0⟩ ((0 : ℚ) + 2)).1.1 = true ↔ 1 ≤ 2 * REFILL_RATE) ∧
     (checkBucket ⟨0, 0⟩ ((0 : ℚ) + 2)).2.tokens = 11/30) :=
  ⟨by norm_num, refill_after_exhaustion 0 2 (by norm_num)⟩

/-- C5: on denial (post-refill tokens below 1) the returned delay equals
`pyRound ((1 - tokens) / REFILL_RATE)` on the post-refill tokens value, is a
non-negative integer, and `pyRound` (Python 3's builtin `round`) resolves
ties half-to-even. -/
theorem retry_after_formula (b : TokenBucket) (now : ℚ)
    (h : (refillBucket b now).tokens < 1) :
    (checkBucket b now).1
      = (false, pyRound ((1 - (refillBucket b now).tokens) / REFILL_RATE)) ∧
    0 ≤ (checkBucket b now).1.2 ∧
    (∀ n : ℤ, pyRound ((n : ℚ) + 1/2) = if n % 2 = 0 then n else n + 1) := by
  rw [checkBucket_deny h]
  refine ⟨rfl, ?_, pyRound_half_even⟩
  exact pyRound_nonneg (div_nonneg (by linarith) REFILL_RATE_pos.le)

/-- Witness for C5 on an exhausted bucket checked at its own stamp. -/
theorem retry_after_formula_witness :
    (refillBucket ⟨0, 0⟩ 0).tokens < 1 ∧
    ((checkBucket (⟨0, 0⟩ : TokenBucket) 0).1
        = (false, pyRound ((1 - (refillBucket ⟨0, 0⟩ 0).tokens) / REFILL_RATE)) ∧
     0 ≤ (checkBucket (⟨0, 0⟩ : TokenBucket) 0).1.2 ∧
     (∀ n : ℤ, pyRound ((n : ℚ) + 1/2) = if n % 2 = 0 then n else n + 1)) :=
  ⟨by norm_num [refillBucket, elapsedOf, MAX_TOKENS, REFILL_RATE],
   retry_after_formula ⟨0, 0⟩ 0
     (by norm_num [refillBucket, elapsedOf, MAX_TOKENS, REFILL_RATE])⟩

/-- C6: for one fixed bucket state and two denial-producing call times
`now1 ≤ now2`, the delay returned at `now2` is at most the one returned at
`now1`, and both are non-negative. -/
theorem retry_after_monotone (b : TokenBucket) (now1 now2 : ℚ)
    (h12 : now1 ≤ now2)
    (h1 : (checkBucket b now1).1.1 = false)
    (h2 : (checkBucket b now2).1.1 = false) :
    (checkBucket b now2).1.2 ≤ (checkBucket b now1).1.2 ∧
    0 ≤ (checkBucket b now1).1.2 ∧ 0 ≤ (checkBucket b now2).1.2 := by
  have ht1 : (refillBucket b now1).tokens < 1 :=
    (checkBucket_denied_iff b now1).mp h1
  have ht2 : (refillBucket b now2).tokens < 1 :=
    (checkBucket_denied_iff b now2).mp h2
  have hmono := refill_tokens_mono b h12
  rw [checkBucket_deny ht1, checkBucket_deny ht2]
  refine ⟨pyRound_mono ?_, pyRound_nonneg ?_, pyRound_nonneg ?_⟩
  · exact (div_le_div_iff_of_pos_right REFILL_RATE_pos).mpr (by linarith)
  · exact div_nonneg (by linarith) REFILL_RATE_pos.le
  · exact div_nonneg (by linarith) REFILL_RATE_pos.le

/-- Witness for C6 on an exhausted bucket at call times 10 and 11. -/
theorem retry_after_monotone_witness :
    ((10 : ℚ) ≤ 11) ∧
    (checkBucket ⟨0, 10⟩ 10).1.1 = false ∧
    (checkBucket ⟨0, 10⟩ 11).1.1 = false ∧
    ((checkBucket ⟨0, 10⟩ 11).1.2 ≤ (checkBucket ⟨0, 10⟩ 10).1.2 ∧
     0 ≤ (checkBucket ⟨0, 10⟩ 10).1.2 ∧ 0 ≤ (checkBucket ⟨0, 10⟩ 11).1.2) :=
  ⟨by norm_num,
   by
     rw [checkBucket_denied_iff]
     norm_num [refillBucket, elapsedOf, MAX_TOKENS, REFILL_RATE],
   by
     rw [checkBucket_denied_iff]
     norm_num [refillBucket, elapsedOf, MAX_TOKENS, REFILL_RATE],
   retry_after_monotone ⟨0, 10⟩ 10 11 (by norm_num)
     (by
       rw [checkBucket_denied_iff]
       norm_num [refillBucket, elapsedOf, MAX_TOKENS, REFILL_RATE])
     (by
       rw [checkBucket_denied_iff]
       norm_num [refillBucket, elapsedOf, MAX_TOKENS, REFILL_RATE])⟩

/-- C7 (amended): when a call's `now` is at or after the bucket's stored
`last_refill` stamp, `elapsed ≥ 0` and the stamp is updated to `now`, hence
non-decreasing.  The code itself cannot guarantee this: it reads `time.time()`
(wall clock), which is not a monotonic source. -/
theorem elapsed_nonneg_of_monotone_now (b : TokenBucket) (now : ℚ)
    (h : b.last_refill ≤ now) :
    0 ≤ elapsedOf b now ∧
    (checkBucket b now).2.last_refill = now ∧
    b.last_refill ≤ (checkBucket b now).2.last_refill := by
  have he : 0 ≤ elapsedOf b now := by
    unfold elapsedOf
    linarith
  have hl : (checkBucket b now).2.last_refill = now := by
    by_cases hc : (refillBucket b now).tokens < 1
    · rw [checkBucket_deny hc]
      rfl
    · rw [checkBucket_admits (not_lt.mp hc)]
  refine ⟨he, hl, ?_⟩
  rw [hl]
  exact h

/-- Witness for C7 (amended) with the clock slightly ahead of the stamp. -/
theorem elapsed_nonneg_witness :
    (⟨3, 7⟩ : TokenBucket).last_refill ≤ (15/2 : ℚ) ∧
    (0 ≤ elapsedOf ⟨3, 7⟩ (15/2) ∧
     (checkBucket ⟨3, 7⟩ (15/2)).2.last_refill = 15/2 ∧
     (⟨3, 7⟩ : TokenBucket).last_refill
       ≤ (checkBucket ⟨3, 7⟩ (15/2)).2.last_refill) :=
  ⟨by norm_num, elapsed_nonneg_of_monotone_now ⟨3, 7⟩ (15/2) (by norm_num)⟩

/-- Counterexample to C7 as stated: a bucket stamped at 50 hit when the wall
clock reads 0 sees `elapsed = -50 < 0`, and its `last_refill` stamp moves
backward from 50 to 0. -/
theorem elapsed_negative_backward_clock :
    elapsedOf ⟨5, 50⟩ 0 < 0 ∧ (checkBucket ⟨5, 50⟩ 0).2.last_refill < 50 := by
  constructor
  · norm_num [elapsedOf]
  · rw [checkBucket_deny
      (by norm_num [refillBucket, elapsedOf, MAX_TOKENS, REFILL_RATE])]
    norm_num [refillBucket]

/-- C8: a `check_rate_limit` call for key A leaves the stored bucket of any
other key B unchanged, and leaves the decision any later call for key B would
produce unchanged. -/
theorem per_key_independence (store : Store) (kA kB : String) (now now2 : ℚ)
    (h : kA ≠ kB) :
    (check_rate_limit store kA now).2 kB = store kB ∧
    (check_rate_limit ((check_rate_limit store kA now).2) kB now2).1
      = (check_rate_limit store kB now2).1 := by
  have hfr : (check_rate_limit store kA now).2 kB = store kB := by
    simp only [check_rate_limit]
    rw [if_neg (Ne.symm h)]
  exact ⟨hfr, check_decision_congr _ store kB now2 hfr⟩

/-- Witness for C8 with distinct keys on the empty store. -/
theorem per_key_independence_witness :
    ("a" : String) ≠ "b" ∧
    ((check_rate_limit (fun _ => none) "a" 0).2 "b"
        = (fun _ => none : Store) "b" ∧
     (check_rate_limit ((check_rate_limit (fun _ => none) "a" 0).2) "b" 1).1
        = (check_rate_limit (fun _ => none) "b" 1).1) :=
  ⟨by simp, per_key_independence (fun _ => none) "a" "b" 0 1 (by simp)⟩

/-- C9: a denied call is not state-preserving — it still writes the refilled
clamped tokens value `min(MAX_TOKENS, tokens + elapsed * REFILL_RATE)` and
stamps `last_refill := now`; only the decrement by one is skipped. -/
theorem denied_call_updates_bucket (b : TokenBucket) (now : ℚ)
    (h : (refillBucket b now).tokens < 1) :
    (checkBucket b now).1.1 = false ∧
    (checkBucket b now).2.tokens
      = min MAX_TOKENS (b.tokens + (now - b.last_refill) * REFILL_RATE) ∧
    (checkBucket b now).2.last_refill = now := by
  rw [checkBucket_deny h]
  exact ⟨rfl, rfl, rfl⟩

/-- Witness for C9 on a half-empty bucket checked at its own stamp. -/
theorem denied_call_updates_bucket_witness :
    (refillBucket ⟨1/2, 3⟩ 3).tokens < 1 ∧
    ((checkBucket (⟨1/2, 3⟩ : TokenBucket) 3).1.1 = false ∧
     (checkBucket (⟨1/2, 3⟩ : TokenBucket) 3).2.tokens
       = min MAX_TOKENS ((1/2 : ℚ) + ((3 : ℚ) - 3) * REFILL_RATE) ∧
     (checkBucket (⟨1/2, 3⟩ : TokenBucket) 3).2.last_refill = 3) :=
  ⟨by norm_num [refillBucket, elapsedOf, MAX_TOKENS, REFILL_RATE],
   denied_call_updates_bucket ⟨1/2, 3⟩ 3
     (by norm_num [refillBucket, elapsedOf, MAX_TOKENS, REFILL_RATE])⟩

/-- C10: whenever the post-refill tokens value lies in `[79/120, 1)` — the
interval on which `(1 - tokens) / REFILL_RATE` rounds to zero — the call is
denied with `retry_after = 0`. -/
theorem denial_with_zero_retry (b : TokenBucket) (now : ℚ)
    (h1 : 79/120 ≤ (refillBucket b now).tokens)
    (h2 : (refillBucket b now).tokens < 1) :
    (checkBucket b now).1 = (false, 0) := by
  rw [checkBucket_deny h2]
  have hq0 : (0 : ℚ) ≤ (1 - (refillBucket b now).tokens) / REFILL_RATE :=
    div_nonneg (by linarith) REFILL_RATE_pos.le
  have hqh : (1 - (refillBucket b now).tokens) / REFILL_RATE ≤ 1/2 := by
    rw [div_le_iff₀ REFILL_RATE_pos]
    have hR : REFILL_RATE = 41/60 := rfl
    rw [hR]
    linarith
  rw [pyRound_eq_zero hq0 hqh]

/-- Witness for C10 on a bucket holding 9/10 of a token. -/
theorem denial_with_zero_retry_witness :
    (79/120 : ℚ) ≤ (refillBucket ⟨9/10, 4⟩ 4).tokens ∧
    (refillBucket ⟨9/10, 4⟩ 4).tokens < 1 ∧
    (checkBucket (⟨9/10, 4⟩ : TokenBucket) 4).1 = (false, 0) :=
  ⟨by norm_num [refillBucket, elapsedOf, MAX_TOKENS, REFILL_RATE],
   by norm_num [refillBucket, elapsedOf, MAX_TOKENS, REFILL_RATE],
   denial_with_zero_retry ⟨9/10, 4⟩ 4
     (by norm_num [refillBucket, elapsedOf, MAX_TOKENS, REFILL_RATE])
     (by norm_num [refillBucket, elapsedOf, MAX_TOKENS, REFILL_RATE])⟩
